import Mathlib

/-!
Verification development for the org-to-Jira timeline synchronizer.

The source program is a single Python script.  We embed its core pure
logic shallowly: timestamps are integers (seconds since the epoch), the
Python `timedelta.seconds` component is modelled as `Int.emod` by 86400,
the remote tracker state is an explicit list of work-logs threaded
through the driver, and console printing is dropped (it has no effect on
the data flow).
-/

namespace OrgJiraTimeline

/-- A half-open time interval, the `Interval` namedtuple of the source. -/
structure Interval where
  start : Int
  «end» : Int
deriving DecidableEq, Repr

/-- A recorded clock entry of an outline node (start and end timestamps). -/
structure ClockEntry where
  start : Int
  «end» : Int
deriving DecidableEq, Repr

/-- The duration of a clock entry, as orgparse computes it: end minus start. -/
def ClockEntry.duration (c : ClockEntry) : Int :=
  c.«end» - c.start

/-- An outline node: heading, tags in node order, property map as an
association list, recorded clock entries, and an optional parent link.
Parent links form finite acyclic chains by construction, which the
inductive encoding makes structural. -/
inductive OutlineNode : Type where
  | mk (heading : String) (tags : List String)
      (properties : List (String × String))
      (clock : List ClockEntry)
      (parent : Option OutlineNode) : OutlineNode

def OutlineNode.heading : OutlineNode → String
  | .mk h _ _ _ _ => h

def OutlineNode.tags : OutlineNode → List String
  | .mk _ t _ _ _ => t

def OutlineNode.properties : OutlineNode → List (String × String)
  | .mk _ _ p _ _ => p

def OutlineNode.clock : OutlineNode → List ClockEntry
  | .mk _ _ _ c _ => c

def OutlineNode.parent : OutlineNode → Option OutlineNode
  | .mk _ _ _ _ p => p

/-- The settings structure: compiled project regexps are modelled as
match functions (a regexp applied to a heading yields the list of
findall results), and the tag map as an association list. -/
structure Settings where
  project_regexps : List (String → List String)
  tags : List (String × String)

/-- Python truthiness of an optional string: None and the empty string
are falsy, every other string is truthy. -/
def pytruthy : Option String → Bool
  | none => false
  | some s => !s.isEmpty

/-- The Python `a or b` on optional strings: keep `a` when truthy,
otherwise evaluate to `b`. -/
def pyOr (a b : Option String) : Option String :=
  if pytruthy a then a else b

/-- Source function `match_lookup_intervals`: walk the requested intervals
in order and return the clipped match for the first interval containing
the clock start, or none. -/
def match_lookup_intervals (intervals : List Interval)
    (clock_start clock_end : Int) : Option Interval :=
  match intervals with
  | [] => none
  | ivl :: rest =>
    if clock_start ≥ ivl.start ∧ clock_start < ivl.«end» then
      some ⟨clock_start, if clock_end < ivl.«end» then clock_end else ivl.«end»⟩
    else
      match_lookup_intervals rest clock_start clock_end

/-- Source function `find_issue_in_heading`: apply each project regexp to
the heading in configured order and return the first findall result. -/
def find_issue_in_heading (node : OutlineNode) (settings : Settings) :
    Option String :=
  settings.project_regexps.findSome? fun check_re => (check_re node.heading).head?

/-- Source function `find_issue_in_property`: the value of the
`jira-task` property, when present. -/
def find_issue_in_property (node : OutlineNode) (_settings : Settings) :
    Option String :=
  node.properties.lookup "jira-task"

/-- Source function `find_issue_by_tag`: the configured issue id of the
first node tag that is a key of the tags mapping. -/
def find_issue_by_tag (node : OutlineNode) (settings : Settings) :
    Option String :=
  node.tags.findSome? fun tag => settings.tags.lookup tag

/-- Source function `find_jira_issue`: property, then heading pattern,
then tag, then parent, combined with Python `or` (first truthy wins);
the parent strategy recurses on the parent chain. -/
def find_jira_issue : OutlineNode → Settings → Option String
  | node@(.mk _ _ _ _ parent), settings =>
    pyOr (find_issue_in_property node settings)
      (pyOr (find_issue_in_heading node settings)
        (pyOr (find_issue_by_tag node settings)
          (match parent with
           | some p => find_jira_issue p settings
           | none => none)))

/-- Source function `find_issue_in_parent`: resolve the parent node, when
there is one. -/
def find_issue_in_parent (node : OutlineNode) (settings : Settings) :
    Option String :=
  match node.parent with
  | some p => find_jira_issue p settings
  | none => none

/-- A remote work-log record, as created by `jira.add_worklog`. -/
structure Worklog where
  issue : String
  started : Int
  timeSpentSeconds : Int
  comment : String
deriving DecidableEq, Repr

/-- The work-logs the remote tracker lists for a given issue
(`jira.worklogs(issue)`). -/
def worklogsOf (remote : List Worklog) (issue : String) : List Worklog :=
  remote.filter fun w => w.issue == issue

/-- The `seconds` component of a Python timedelta of `t` seconds, as the
source computes it with `(interval.end - interval.start).seconds`: the
total seconds modulo 86400 (Python `%` is Euclidean on this range). -/
def tdSeconds (t : Int) : Int :=
  t % 86400

/-- Source function `send_interval_to_jira`, as a pure function of the
remote state: returns whether the interval was sent together with the
list of work-logs created (empty or a singleton).  When `query_jira` is
set and an existing work-log of the issue starts exactly at the
interval start, nothing is sent; a write happens only when `send_data`
is set and the seconds component of the duration is non-zero. -/
def send_interval_to_jira (remote : List Worklog) (jira_issue : String)
    (interval : Interval) (description : String)
    (query_jira send_data : Bool) : Bool × List Worklog :=
  if query_jira &&
      (worklogsOf remote jira_issue).any (fun w => w.started == interval.start) then
    (false, [])
  else if send_data && (tdSeconds (interval.«end» - interval.start) != 0) then
    (true, [{ issue := jira_issue, started := interval.start,
              timeSpentSeconds := tdSeconds (interval.«end» - interval.start),
              comment := description }])
  else
    (false, [])

/-- The per-day counters of the driver (`per_day` defaultdict values). -/
structure DayStats where
  invoice_time : Int
  skipped_time : Int
  cumulative_time : Int
  added_time : Int
deriving DecidableEq, Repr

/-- The day of a timestamp (`clocked.start.date()`), as a day number. -/
def dateOf (t : Int) : Int :=
  Int.fdiv t 86400

/-- Point update of a per-day map. -/
def updDay (m : Int → DayStats) (d : Int) (f : DayStats → DayStats) :
    Int → DayStats :=
  fun x => if x = d then f (m d) else m x

/-- Point update of the per-task map (keyed by the resolved issue id,
with `none` as the no-issue sentinel). -/
def updTask (m : Option String → Int) (k : Option String) (f : Int → Int) :
    Option String → Int :=
  fun x => if x = k then f (m k) else m x

/-- The mutable state of one driver run: the remote tracker state, the
count of create-worklog calls performed, and the accumulated totals. -/
structure DriverState where
  remote : List Worklog
  writes : Nat
  invoice_time : Int
  skipped_time : Int
  cumulative_time : Int
  per_day : Int → DayStats
  per_task : Option String → Int

/-- A fresh driver state over a given remote tracker state: all
counters zero, maps at their defaultdict defaults. -/
def initState (remote : List Worklog) : DriverState where
  remote := remote
  writes := 0
  invoice_time := 0
  skipped_time := 0
  cumulative_time := 0
  per_day := fun _ => ⟨0, 0, 0, 0⟩
  per_task := fun _ => 0

/-- The body of the inner `for clocked in node.clock` loop of
`send_data_to_jira`: match the entry, accumulate skipped or invoiced
plus cumulative totals, resolve the issue, accumulate the per-task
total, and, when an issue was resolved and the node is not skipped,
invoke the gate on the matched interval and count an added write. -/
def process_clocked (settings : Settings) (intervals : List Interval)
    (query_jira send_data : Bool) (node : OutlineNode) (skip : Bool)
    (st : DriverState) (clocked : ClockEntry) : DriverState :=
  match match_lookup_intervals intervals clocked.start clocked.«end» with
  | none => st
  | some matched_interval =>
    let day := dateOf clocked.start
    let st1 :=
      if skip then
        { st with
          skipped_time := st.skipped_time + clocked.duration
          per_day := updDay st.per_day day fun x =>
            { x with skipped_time := x.skipped_time + clocked.duration } }
      else
        { st with
          invoice_time := st.invoice_time + clocked.duration
          per_day := updDay st.per_day day fun x =>
            { x with invoice_time := x.invoice_time + clocked.duration } }
    let st2 :=
      { st1 with
        cumulative_time := st1.cumulative_time + clocked.duration
        per_day := updDay st1.per_day day fun x =>
          { x with cumulative_time := x.cumulative_time + clocked.duration } }
    let jira_issue := find_jira_issue node settings
    let st3 := { st2 with per_task := updTask st2.per_task jira_issue (· + clocked.duration) }
    if pytruthy jira_issue && !skip then
      let res := send_interval_to_jira st3.remote (jira_issue.getD "")
        matched_interval node.heading query_jira send_data
      let st4 := { st3 with
        remote := st3.remote ++ res.2
        writes := st3.writes + res.2.length }
      if res.1 then
        { st4 with per_day := updDay st4.per_day day fun x =>
            { x with added_time := x.added_time + clocked.duration } }
      else st4
    else st3

/-- One iteration of the `for node in root[1:]` loop of the driver:
read the skip flag, skip clock-less nodes, and process each clock
entry in order. -/
def process_node (settings : Settings) (intervals : List Interval)
    (query_jira send_data : Bool) (st : DriverState) (node : OutlineNode) :
    DriverState :=
  let skip := pytruthy (node.properties.lookup "jira-skip")
  if node.clock.isEmpty then st
  else node.clock.foldl (process_clocked settings intervals query_jira send_data node skip) st

/-- Source function `send_data_to_jira`, over the flattened sequence of
outline nodes of all configured documents, threading the driver state. -/
def send_data_to_jira (settings : Settings) (intervals : List Interval)
    (query_jira send_data : Bool) (nodes : List OutlineNode)
    (st : DriverState) : DriverState :=
  nodes.foldl (process_node settings intervals query_jira send_data) st

/-- The resolution chain described by the spec: walk the strategy
results in order and return the first non-empty (truthy) one, or none. -/
def firstNonEmptyResult : List (Option String) → Option String
  | [] => none
  | r :: rest => if pytruthy r then r else firstNonEmptyResult rest

/-- A parent chain of blank nodes over a root that carries the
`jira-task` property: `chainNode v N` is a leaf with `N` ancestors
where only the root holds the property value `v`. -/
def chainNode (v : String) : Nat → OutlineNode
  | 0 => .mk "" [] [("jira-task", v)] [] none
  | n + 1 => .mk "" [] [] [] (some (chainNode v n))

example : match_lookup_intervals [⟨0, 100⟩, ⟨50, 200⟩] 60 300 = some ⟨60, 100⟩ := by decide

/-- Claim C1: the matcher returns the clipped interval for the first
requested interval containing the clock start, and no match when no
requested interval contains the clock start, regardless of where the
clock end falls. -/
theorem C1_matcher_first_containing_window (intervals : List Interval)
    (clock_start clock_end : Int) :
    match_lookup_intervals intervals clock_start clock_end =
      (intervals.find? fun ivl =>
        decide (ivl.start ≤ clock_start ∧ clock_start < ivl.«end»)).map
        fun ivl => ⟨clock_start, min clock_end ivl.«end»⟩ := by
  induction intervals with
  | nil => rfl
  | cons ivl rest ih =>
    by_cases h : ivl.start ≤ clock_start ∧ clock_start < ivl.«end»
    · rw [match_lookup_intervals, if_pos ⟨h.1, h.2⟩, List.find?_cons_of_pos _ (by simpa using h)]
      simp only [Option.map_some', Option.some.injEq, Interval.mk.injEq, true_and]
      rw [min_def]
      split <;> split <;> omega
    · rw [match_lookup_intervals, if_neg (fun hc => h ⟨hc.1, hc.2⟩),
        List.find?_cons_of_neg _ (by simpa using h)]
      exact ih

/-- Unfolding of the resolver into the four strategies of the source. -/
theorem find_jira_issue_eq (node : OutlineNode) (s : Settings) :
    find_jira_issue node s =
      pyOr (find_issue_in_property node s)
        (pyOr (find_issue_in_heading node s)
          (pyOr (find_issue_by_tag node s) (find_issue_in_parent node s))) := by
  cases node with
  | mk h t p c parent =>
    cases parent with
    | none => simp only [find_jira_issue]; rfl
    | some q => simp only [find_jira_issue]; rfl

/-- The function `pyOr` preserves the none-or-truthy invariant of its fallback. -/
theorem pyOr_none_or_truthy (a : Option String) {b : Option String}
    (hb : b = none ∨ pytruthy b = true) :
    pyOr a b = none ∨ pytruthy (pyOr a b) = true := by
  unfold pyOr
  by_cases h : pytruthy a = true
  · rw [if_pos h]
    exact Or.inr h
  · rw [if_neg h]
    exact hb

/-- The resolver never returns an empty (falsy) string: its result is
none or a truthy value. -/
theorem find_jira_issue_none_or_truthy :
    ∀ (node : OutlineNode) (s : Settings),
      find_jira_issue node s = none ∨ pytruthy (find_jira_issue node s) = true
  | .mk h t p c none, s => by
    simp only [find_jira_issue]
    exact pyOr_none_or_truthy _ (pyOr_none_or_truthy _ (pyOr_none_or_truthy _ (Or.inl rfl)))
  | .mk h t p c (some q), s => by
    simp only [find_jira_issue]
    exact pyOr_none_or_truthy _
      (pyOr_none_or_truthy _ (pyOr_none_or_truthy _ (find_jira_issue_none_or_truthy q s)))

/-- The parent strategy result is none or truthy. -/
theorem find_issue_in_parent_none_or_truthy (node : OutlineNode) (s : Settings) :
    find_issue_in_parent node s = none ∨ pytruthy (find_issue_in_parent node s) = true := by
  unfold find_issue_in_parent
  cases node.parent with
  | none => exact Or.inl rfl
  | some q => exact find_jira_issue_none_or_truthy q s

/-- Claim C2: the resolver tries property, heading pattern, tag, and
parent inheritance in strict order and returns the first non-empty
result; later strategies cannot influence the outcome once an earlier
one is non-empty. -/
theorem C2_resolver_first_nonempty (node : OutlineNode) (s : Settings) :
    find_jira_issue node s =
      firstNonEmptyResult
        [find_issue_in_property node s, find_issue_in_heading node s,
         find_issue_by_tag node s, find_issue_in_parent node s] := by
  rw [find_jira_issue_eq]
  simp only [firstNonEmptyResult, pyOr]
  rcases find_issue_in_parent_none_or_truthy node s with hp | hp
  · rw [hp]
    rfl
  · rw [if_pos hp]

/-- Claim C3: parent-inheritance terminates: a node with no truthy
strategy result of its own and no parent resolves to none, and a leaf
under `N` blank ancestors whose root carries the `jira-task` property
resolves to that property value for every `N`. -/
theorem C3_parent_chain_termination :
    (∀ (h : String) (t : List String) (p : List (String × String))
        (c : List ClockEntry) (s : Settings),
      pytruthy (find_issue_in_property (.mk h t p c none) s) = false →
      pytruthy (find_issue_in_heading (.mk h t p c none) s) = false →
      pytruthy (find_issue_by_tag (.mk h t p c none) s) = false →
      find_jira_issue (.mk h t p c none) s = none) ∧
    (∀ (N : Nat) (v : String) (s : Settings), v ≠ "" →
      (∀ re ∈ s.project_regexps, re "" = []) →
      find_jira_issue (chainNode v N) s = some v) := by
  constructor
  · intro h t p c s h1 h2 h3
    rw [find_jira_issue_eq]
    simp only [pyOr, h1, h2, h3, if_neg]
    simp [find_issue_in_parent, OutlineNode.parent]
  · intro N v s hv hre
    induction N with
    | zero =>
      rw [find_jira_issue_eq]
      have hprop : find_issue_in_property (chainNode v 0) s = some v := by
        simp [chainNode, find_issue_in_property, OutlineNode.properties, List.lookup]
      rw [hprop]
      simp [pyOr, pytruthy, String.isEmpty_iff, hv]
    | succ n ihn =>
      rw [find_jira_issue_eq]
      have hprop : find_issue_in_property (chainNode v (n + 1)) s = none := by
        simp [chainNode, find_issue_in_property, OutlineNode.properties, List.lookup]
      have hhead : find_issue_in_heading (chainNode v (n + 1)) s = none := by
        simp only [find_issue_in_heading, chainNode, OutlineNode.heading]
        rw [List.findSome?_eq_none_iff]
        intro re hmem
        rw [hre re hmem]
        rfl
      have htag : find_issue_by_tag (chainNode v (n + 1)) s = none := by
        simp [chainNode, find_issue_by_tag, OutlineNode.tags]
      have hpar : find_issue_in_parent (chainNode v (n + 1)) s = some v := by
        simp only [find_issue_in_parent, chainNode, OutlineNode.parent]
        exact ihn
      rw [hprop, hhead, htag, hpar]
      rfl

/-- Witness for claim C3 at a concrete chain of depth 3. -/
theorem C3_witness :
    find_jira_issue (.mk "h" [] [] [] none) ⟨[], []⟩ = none ∧
    find_jira_issue (chainNode "X-1" 3) ⟨[], []⟩ = some "X-1" :=
  ⟨C3_parent_chain_termination.1 "h" [] [] [] ⟨[], []⟩ (by decide) (by decide) (by decide),
   C3_parent_chain_termination.2 3 "X-1" ⟨[], []⟩ (by decide)
     (by intro re hmem; exact absurd hmem (List.not_mem_nil re))⟩

/-- An unmatched clock entry leaves the driver state untouched. -/
theorem pc_unmatched (settings : Settings) (intervals : List Interval)
    (q s : Bool) (node : OutlineNode) (skip : Bool) (st : DriverState)
    (clocked : ClockEntry)
    (hm : match_lookup_intervals intervals clocked.start clocked.«end» = none) :
    process_clocked settings intervals q s node skip st clocked = st := by
  simp [process_clocked, hm]

/-- A matched clock entry always adds its full duration to the global
cumulative total. -/
theorem pc_cumulative (settings : Settings) (intervals : List Interval)
    (q s : Bool) (node : OutlineNode) (skip : Bool) (st : DriverState)
    (clocked : ClockEntry) (m : Interval)
    (hm : match_lookup_intervals intervals clocked.start clocked.«end» = some m) :
    (process_clocked settings intervals q s node skip st clocked).cumulative_time =
      st.cumulative_time + clocked.duration := by
  simp only [process_clocked, hm, updDay, updTask]
  split_ifs <;> simp_all [updDay, updTask]

/-- Global invoiced-time accumulation of a matched entry. -/
theorem pc_invoice (settings : Settings) (intervals : List Interval)
    (q s : Bool) (node : OutlineNode) (skip : Bool) (st : DriverState)
    (clocked : ClockEntry) (m : Interval)
    (hm : match_lookup_intervals intervals clocked.start clocked.«end» = some m) :
    (process_clocked settings intervals q s node skip st clocked).invoice_time =
      st.invoice_time + (if skip = false then clocked.duration else 0) := by
  simp only [process_clocked, hm, updDay, updTask]
  split_ifs <;> simp_all [updDay, updTask]

/-- Global skipped-time accumulation of a matched entry. -/
theorem pc_skipped (settings : Settings) (intervals : List Interval)
    (q s : Bool) (node : OutlineNode) (skip : Bool) (st : DriverState)
    (clocked : ClockEntry) (m : Interval)
    (hm : match_lookup_intervals intervals clocked.start clocked.«end» = some m) :
    (process_clocked settings intervals q s node skip st clocked).skipped_time =
      st.skipped_time + (if skip = true then clocked.duration else 0) := by
  simp only [process_clocked, hm, updDay, updTask]
  split_ifs <;> simp_all [updDay, updTask]

/-- The remote state after a matched entry: unchanged unless the gate
fired, in which case its created work-logs are appended. -/
theorem pc_remote (settings : Settings) (intervals : List Interval)
    (q s : Bool) (node : OutlineNode) (skip : Bool) (st : DriverState)
    (clocked : ClockEntry) (m : Interval)
    (hm : match_lookup_intervals intervals clocked.start clocked.«end» = some m) :
    (process_clocked settings intervals q s node skip st clocked).remote =
      st.remote ++
        (if pytruthy (find_jira_issue node settings) && !skip then
          (send_interval_to_jira st.remote ((find_jira_issue node settings).getD "")
            m node.heading q s).2
        else []) := by
  simp only [process_clocked, hm, updDay, updTask]
  split_ifs <;> simp_all [updDay, updTask]

/-- The write counter after a matched entry. -/
theorem pc_writes (settings : Settings) (intervals : List Interval)
    (q s : Bool) (node : OutlineNode) (skip : Bool) (st : DriverState)
    (clocked : ClockEntry) (m : Interval)
    (hm : match_lookup_intervals intervals clocked.start clocked.«end» = some m) :
    (process_clocked settings intervals q s node skip st clocked).writes =
      st.writes +
        (if pytruthy (find_jira_issue node settings) && !skip then
          (send_interval_to_jira st.remote ((find_jira_issue node settings).getD "")
            m node.heading q s).2.length
        else 0) := by
  simp only [process_clocked, hm, updDay, updTask]
  split_ifs <;> simp_all [updDay, updTask]

/-- The per-task map after a matched entry: the resolved key gains the
full duration, every other key is unchanged. -/
theorem pc_per_task (settings : Settings) (intervals : List Interval)
    (q s : Bool) (node : OutlineNode) (skip : Bool) (st : DriverState)
    (clocked : ClockEntry) (m : Interval) (k : Option String)
    (hm : match_lookup_intervals intervals clocked.start clocked.«end» = some m) :
    (process_clocked settings intervals q s node skip st clocked).per_task k =
      if k = find_jira_issue node settings then st.per_task k + clocked.duration
      else st.per_task k := by
  simp only [process_clocked, hm, updDay, updTask]
  split_ifs <;> simp_all [updDay, updTask]

/-- Per-day cumulative accumulation of a matched entry. -/
theorem pc_per_day_cumulative (settings : Settings) (intervals : List Interval)
    (q s : Bool) (node : OutlineNode) (skip : Bool) (st : DriverState)
    (clocked : ClockEntry) (m : Interval) (x : Int)
    (hm : match_lookup_intervals intervals clocked.start clocked.«end» = some m) :
    ((process_clocked settings intervals q s node skip st clocked).per_day x).cumulative_time =
      (st.per_day x).cumulative_time +
        (if x = dateOf clocked.start then clocked.duration else 0) := by
  simp only [process_clocked, hm, updDay, updTask]
  split_ifs <;> simp_all [updDay, updTask]

/-- Per-day invoiced accumulation of a matched entry. -/
theorem pc_per_day_invoice (settings : Settings) (intervals : List Interval)
    (q s : Bool) (node : OutlineNode) (skip : Bool) (st : DriverState)
    (clocked : ClockEntry) (m : Interval) (x : Int)
    (hm : match_lookup_intervals intervals clocked.start clocked.«end» = some m) :
    ((process_clocked settings intervals q s node skip st clocked).per_day x).invoice_time =
      (st.per_day x).invoice_time +
        (if x = dateOf clocked.start ∧ skip = false then clocked.duration else 0) := by
  simp only [process_clocked, hm, updDay, updTask]
  split_ifs <;> simp_all [updDay, updTask]
  all_goals try (split <;> simp_all)

/-- Per-day skipped accumulation of a matched entry. -/
theorem pc_per_day_skipped (settings : Settings) (intervals : List Interval)
    (q s : Bool) (node : OutlineNode) (skip : Bool) (st : DriverState)
    (clocked : ClockEntry) (m : Interval) (x : Int)
    (hm : match_lookup_intervals intervals clocked.start clocked.«end» = some m) :
    ((process_clocked settings intervals q s node skip st clocked).per_day x).skipped_time =
      (st.per_day x).skipped_time +
        (if x = dateOf clocked.start ∧ skip = true then clocked.duration else 0) := by
  simp only [process_clocked, hm, updDay, updTask]
  split_ifs <;> simp_all [updDay, updTask]
  all_goals try (split <;> simp_all)

/-- Per-day added accumulation of a matched entry: the full recorded
duration is added exactly when the gate fired and reported sent. -/
theorem pc_per_day_added (settings : Settings) (intervals : List Interval)
    (q s : Bool) (node : OutlineNode) (skip : Bool) (st : DriverState)
    (clocked : ClockEntry) (m : Interval) (x : Int)
    (hm : match_lookup_intervals intervals clocked.start clocked.«end» = some m) :
    ((process_clocked settings intervals q s node skip st clocked).per_day x).added_time =
      (st.per_day x).added_time +
        (if x = dateOf clocked.start ∧
            (pytruthy (find_jira_issue node settings) && !skip) = true ∧
            (send_interval_to_jira st.remote ((find_jira_issue node settings).getD "")
              m node.heading q s).1 = true then
          clocked.duration
        else 0) := by
  simp only [process_clocked, hm, updDay, updTask]
  split_ifs <;> simp_all [updDay, updTask]
  all_goals try (split <;> simp_all)

/-- Claim C4: with `query_remote` set, an existing remote work-log of
the issue whose start equals the interval start makes the gate return
not-sent with no work-log created, regardless of `perform_write`. -/
theorem C4_duplicate_never_sent (remote : List Worklog) (jira_issue : String)
    (interval : Interval) (description : String) (send_data : Bool)
    (hdup : ∃ w ∈ worklogsOf remote jira_issue, w.started = interval.start) :
    send_interval_to_jira remote jira_issue interval description true send_data =
      (false, []) := by
  have hc : (worklogsOf remote jira_issue).any
      (fun w => w.started == interval.start) = true := by
    rcases hdup with ⟨w, hw, hs⟩
    exact List.any_eq_true.mpr ⟨w, hw, by simp [hs]⟩
  simp [send_interval_to_jira, hc]

/-- Witness for claim C4 at a concrete duplicate. -/
theorem C4_witness :
    (∃ w ∈ worklogsOf [⟨"X", 5, 10, "c"⟩] "X", w.started = (5 : Int)) ∧
    send_interval_to_jira [⟨"X", 5, 10, "c"⟩] "X" ⟨5, 99⟩ "d" true true = (false, []) :=
  ⟨by decide, C4_duplicate_never_sent _ _ _ _ _ (by decide)⟩

example :
    find_jira_issue (.mk "h" [] [("jira-task", "X-1")] [] none) ⟨[], []⟩ = some "X-1" := by
  decide

example :
    find_jira_issue
      (.mk "h" [] [] [] (some (.mk "p" [] [("jira-task", "X-2")] [] none)))
      ⟨[fun _ => []], [("t", "X-3")]⟩ = some "X-2" := by
  decide

/-- A matched interval starts at the clock start, ends no later than the
clock end, and, for a well-formed entry, no earlier than the clock start. -/
theorem match_some_facts (intervals : List Interval) (cs ce : Int) (m : Interval)
    (hm : match_lookup_intervals intervals cs ce = some m) :
    m.start = cs ∧ m.«end» ≤ ce ∧ (cs ≤ ce → cs ≤ m.«end») := by
  induction intervals with
  | nil => simp [match_lookup_intervals] at hm
  | cons ivl rest ih =>
    rw [match_lookup_intervals] at hm
    by_cases h : cs ≥ ivl.start ∧ cs < ivl.«end»
    · rw [if_pos h] at hm
      have hsome := Option.some.inj hm
      subst hsome
      refine ⟨rfl, ?_, ?_⟩ <;> dsimp only <;> split <;> omega
    · rw [if_neg h] at hm
      exact ih hm

/-- The seconds component of a non-negative number of seconds never
exceeds the total. -/
theorem tdSeconds_le {t : Int} (h : 0 ≤ t) : tdSeconds t ≤ t := by
  unfold tdSeconds
  rcases lt_or_le t 86400 with h1 | h1
  · rw [Int.emod_eq_of_lt h h1]
  · have h2 := Int.emod_lt_of_pos t (show (0 : Int) < 86400 by norm_num)
    omega

/-- Claim C5: a zero-duration interval is never written and reported
not-sent whatever the flags; consequently a matched zero-duration
entry never increments the write counter nor any per-day added-time. -/
theorem C5_zero_duration_never_sent (i : Interval) (hzero : i.«end» = i.start) :
    (∀ (remote : List Worklog) (jid d : String) (q s : Bool),
      send_interval_to_jira remote jid i d q s = (false, [])) ∧
    (∀ (settings : Settings) (intervals : List Interval) (q s : Bool)
        (node : OutlineNode) (skip : Bool) (st : DriverState) (clocked : ClockEntry),
      match_lookup_intervals intervals clocked.start clocked.«end» = some i →
      (process_clocked settings intervals q s node skip st clocked).writes = st.writes ∧
      ∀ day, ((process_clocked settings intervals q s node skip st clocked).per_day day).added_time =
        (st.per_day day).added_time) := by
  have hgate : ∀ (remote : List Worklog) (jid d : String) (q s : Bool),
      send_interval_to_jira remote jid i d q s = (false, []) := by
    intro remote jid d q s
    have hts : tdSeconds (i.«end» - i.start) = 0 := by
      rw [hzero]
      simp [tdSeconds]
    simp only [send_interval_to_jira, hts]
    split_ifs <;> simp_all
  refine ⟨hgate, ?_⟩
  intro settings intervals q s node skip st clocked hm
  constructor
  · rw [pc_writes settings intervals q s node skip st clocked i hm, hgate]
    simp
  · intro day
    rw [pc_per_day_added settings intervals q s node skip st clocked i day hm, hgate]
    simp

/-- Witness for claim C5 at a concrete zero-length entry. -/
theorem C5_witness :
    send_interval_to_jira [] "X" ⟨7, 7⟩ "d" true true = (false, []) ∧
    (process_clocked ⟨[], []⟩ [⟨7, 30⟩] true true
      (.mk "h" [] [("jira-task", "X")] [] none) false (initState []) ⟨7, 7⟩).writes =
      (initState ([] : List Worklog)).writes ∧
    ((process_clocked ⟨[], []⟩ [⟨7, 30⟩] true true
      (.mk "h" [] [("jira-task", "X")] [] none) false (initState []) ⟨7, 7⟩).per_day 0).added_time =
      ((initState ([] : List Worklog)).per_day 0).added_time :=
  ⟨(C5_zero_duration_never_sent ⟨7, 7⟩ rfl).1 [] "X" "d" true true,
   ((C5_zero_duration_never_sent ⟨7, 7⟩ rfl).2 ⟨[], []⟩ [⟨7, 30⟩] true true
      (.mk "h" [] [("jira-task", "X")] [] none) false (initState []) ⟨7, 7⟩ (by decide)).1,
   ((C5_zero_duration_never_sent ⟨7, 7⟩ rfl).2 ⟨[], []⟩ [⟨7, 30⟩] true true
      (.mk "h" [] [("jira-task", "X")] [] none) false (initState []) ⟨7, 7⟩ (by decide)).2 0⟩

/-- Counterexample to claim C6: a 24-hour interval has non-zero
duration, perform-write is set and the duplicate check finds nothing,
yet the gate creates no work-log and reports not-sent, because the
source tests the seconds component of the duration, which is zero. -/
theorem C6_counterexample :
    ((⟨0, 86400⟩ : Interval).«end» - (⟨0, 86400⟩ : Interval).start ≠ 0) ∧
    send_interval_to_jira [] "X" ⟨0, 86400⟩ "d" true true = (false, []) := by
  constructor
  · decide
  · rfl

/-- Claim C6 as amended: when perform-write is set, the duplicate check
finds no work-log starting at the interval start, and the seconds
component of the duration (total seconds modulo 86400) is non-zero, the
gate creates exactly one work-log carrying the interval start, that
seconds component, and the description, and reports sent. -/
theorem C6_amended_single_write (remote : List Worklog) (jira_issue : String)
    (i : Interval) (d : String) (q : Bool)
    (hdup : q = true → ∀ w ∈ worklogsOf remote jira_issue, w.started ≠ i.start)
    (hsec : tdSeconds (i.«end» - i.start) ≠ 0) :
    send_interval_to_jira remote jira_issue i d q true =
      (true, [{ issue := jira_issue, started := i.start,
                timeSpentSeconds := tdSeconds (i.«end» - i.start), comment := d }]) := by
  unfold send_interval_to_jira
  split_ifs with h1 h2
  · exfalso
    have h1a := (Bool.and_eq_true _ _).mp h1
    obtain ⟨w, hw, hb⟩ := List.any_eq_true.mp h1a.2
    exact hdup h1a.1 w hw (by simpa using hb) 
  · rfl
  · exfalso
    apply h2
    simp [bne_iff_ne, hsec]

/-- Witness for the amended claim C6 at a concrete one-hour interval. -/
theorem C6_witness :
    send_interval_to_jira [] "X" ⟨0, 3600⟩ "d" true true =
      (true, [⟨"X", 0, 3600, "d"⟩]) :=
  C6_amended_single_write [] "X" ⟨0, 3600⟩ "d" true (by decide) (by decide)

/-- Claim C7: every matched entry adds its full recorded duration to
the cumulative total, globally and for its start date; the same
duration goes to invoiced time exactly when the node is not skipped and
to skipped time exactly when it is, never both. -/
theorem C7_matched_accumulation (settings : Settings) (intervals : List Interval)
    (q s : Bool) (node : OutlineNode) (skip : Bool) (st : DriverState)
    (clocked : ClockEntry) (m : Interval)
    (hm : match_lookup_intervals intervals clocked.start clocked.«end» = some m) :
    (process_clocked settings intervals q s node skip st clocked).cumulative_time =
      st.cumulative_time + clocked.duration ∧
    ((process_clocked settings intervals q s node skip st clocked).per_day
        (dateOf clocked.start)).cumulative_time =
      (st.per_day (dateOf clocked.start)).cumulative_time + clocked.duration ∧
    (skip = false →
      (process_clocked settings intervals q s node skip st clocked).invoice_time =
        st.invoice_time + clocked.duration ∧
      ((process_clocked settings intervals q s node skip st clocked).per_day
          (dateOf clocked.start)).invoice_time =
        (st.per_day (dateOf clocked.start)).invoice_time + clocked.duration ∧
      (process_clocked settings intervals q s node skip st clocked).skipped_time =
        st.skipped_time ∧
      ((process_clocked settings intervals q s node skip st clocked).per_day
          (dateOf clocked.start)).skipped_time =
        (st.per_day (dateOf clocked.start)).skipped_time) ∧
    (skip = true →
      (process_clocked settings intervals q s node skip st clocked).skipped_time =
        st.skipped_time + clocked.duration ∧
      ((process_clocked settings intervals q s node skip st clocked).per_day
          (dateOf clocked.start)).skipped_time =
        (st.per_day (dateOf clocked.start)).skipped_time + clocked.duration ∧
      (process_clocked settings intervals q s node skip st clocked).invoice_time =
        st.invoice_time ∧
      ((process_clocked settings intervals q s node skip st clocked).per_day
          (dateOf clocked.start)).invoice_time =
        (st.per_day (dateOf clocked.start)).invoice_time) := by
  refine ⟨pc_cumulative settings intervals q s node skip st clocked m hm, ?_, ?_, ?_⟩
  · rw [pc_per_day_cumulative settings intervals q s node skip st clocked m
      (dateOf clocked.start) hm]
    simp
  · intro hs
    refine ⟨?_, ?_, ?_, ?_⟩
    · rw [pc_invoice settings intervals q s node skip st clocked m hm, hs]
      simp
    · rw [pc_per_day_invoice settings intervals q s node skip st clocked m
        (dateOf clocked.start) hm, hs]
      simp
    · rw [pc_skipped settings intervals q s node skip st clocked m hm, hs]
      simp
    · rw [pc_per_day_skipped settings intervals q s node skip st clocked m
        (dateOf clocked.start) hm, hs]
      simp
  · intro hs
    refine ⟨?_, ?_, ?_, ?_⟩
    · rw [pc_skipped settings intervals q s node skip st clocked m hm, hs]
      simp
    · rw [pc_per_day_skipped settings intervals q s node skip st clocked m
        (dateOf clocked.start) hm, hs]
      simp
    · rw [pc_invoice settings intervals q s node skip st clocked m hm, hs]
      simp
    · rw [pc_per_day_invoice settings intervals q s node skip st clocked m
        (dateOf clocked.start) hm, hs]
      simp

/-- Witness for claim C7 at a concrete matched entry. -/
theorem C7_witness :
    (process_clocked ⟨[], []⟩ [⟨0, 100⟩] true true
      (.mk "h" [] [] [] none) false (initState []) ⟨10, 40⟩).cumulative_time =
      (initState ([] : List Worklog)).cumulative_time + (⟨10, 40⟩ : ClockEntry).duration ∧
    (process_clocked ⟨[], []⟩ [⟨0, 100⟩] true true
      (.mk "h" [] [] [] none) false (initState []) ⟨10, 40⟩).invoice_time =
      (initState ([] : List Worklog)).invoice_time + (⟨10, 40⟩ : ClockEntry).duration :=
  ⟨(C7_matched_accumulation ⟨[], []⟩ [⟨0, 100⟩] true true
      (.mk "h" [] [] [] none) false (initState []) ⟨10, 40⟩ ⟨10, 40⟩ (by decide)).1,
   ((C7_matched_accumulation ⟨[], []⟩ [⟨0, 100⟩] true true
      (.mk "h" [] [] [] none) false (initState []) ⟨10, 40⟩ ⟨10, 40⟩ (by decide)).2.2.1 rfl).1⟩

/-- Claim C10: when the gate reports sent for a clipped matched
interval, the driver adds the full recorded duration to the per-day
added-time, which strictly exceeds the seconds actually submitted in
the created work-log whenever the recorded end exceeds the requested
window end. -/
theorem C10_added_exceeds_submitted (settings : Settings) (intervals : List Interval)
    (q s : Bool) (node : OutlineNode) (st : DriverState) (clocked : ClockEntry)
    (m : Interval)
    (hm : match_lookup_intervals intervals clocked.start clocked.«end» = some m)
    (hclip : m.«end» < clocked.«end»)
    (hord : clocked.start ≤ clocked.«end»)
    (htruthy : pytruthy (find_jira_issue node settings) = true)
    (hsent : (send_interval_to_jira st.remote ((find_jira_issue node settings).getD "")
        m node.heading q s).1 = true) :
    ((process_clocked settings intervals q s node false st clocked).per_day
        (dateOf clocked.start)).added_time =
      (st.per_day (dateOf clocked.start)).added_time + clocked.duration ∧
    ∀ w ∈ (send_interval_to_jira st.remote ((find_jira_issue node settings).getD "")
        m node.heading q s).2, w.timeSpentSeconds < clocked.duration := by
  obtain ⟨hstart, hle, hge⟩ := match_some_facts intervals clocked.start clocked.«end» m hm
  constructor
  · rw [pc_per_day_added settings intervals q s node false st clocked m
      (dateOf clocked.start) hm]
    rw [if_pos ⟨rfl, by simp [htruthy], hsent⟩]
  · intro w hw
    have hdur : 0 ≤ m.«end» - m.start := by
      have := hge hord
      omega
    have hlt : m.«end» - m.start < clocked.duration := by
      unfold ClockEntry.duration
      omega
    have hts := tdSeconds_le hdur
    revert hsent
    unfold send_interval_to_jira at hw ⊢
    split_ifs at hw ⊢ with h1 h2
    · intro hsent
      exact absurd hsent (by simp)
    · intro _
      have hwrec := List.mem_singleton.mp hw
      rw [hwrec]
      dsimp only
      omega
    · intro hsent
      exact absurd hsent (by simp)

/-- Witness for claim C10: a two-hundred-second entry clipped to a
hundred-second window. -/
theorem C10_witness :
    ((process_clocked ⟨[], []⟩ [⟨0, 100⟩] true true
        (.mk "h" [] [("jira-task", "X")] [] none) false (initState []) ⟨0, 200⟩).per_day
        (dateOf 0)).added_time =
      ((initState ([] : List Worklog)).per_day (dateOf 0)).added_time +
        (⟨0, 200⟩ : ClockEntry).duration ∧
    (⟨"X", 0, 100, "h"⟩ : Worklog).timeSpentSeconds < (⟨0, 200⟩ : ClockEntry).duration :=
  ⟨(C10_added_exceeds_submitted ⟨[], []⟩ [⟨0, 100⟩] true true
      (.mk "h" [] [("jira-task", "X")] [] none) (initState []) ⟨0, 200⟩ ⟨0, 100⟩
      (by decide) (by decide) (by decide) (by decide) (by decide)).1,
   (C10_added_exceeds_submitted ⟨[], []⟩ [⟨0, 100⟩] true true
      (.mk "h" [] [("jira-task", "X")] [] none) (initState []) ⟨0, 200⟩ ⟨0, 100⟩
      (by decide) (by decide) (by decide) (by decide) (by decide)).2
      ⟨"X", 0, 100, "h"⟩ (by decide)⟩

/-- The sum of the recorded durations of the clock entries that the
matcher accepts for the given requested intervals. -/
def matchedDurationSum (intervals : List Interval) : List ClockEntry → Int
  | [] => 0
  | c :: rest =>
    (if (match_lookup_intervals intervals c.start c.«end»).isSome then c.duration else 0) +
      matchedDurationSum intervals rest

/-- Folding the clock entries of a skipped node: the remote state and
write counter never change, while cumulative, skipped and the per-task
total of the resolved issue each gain the matched-duration sum. -/
theorem foldl_skip_accumulation (settings : Settings) (intervals : List Interval)
    (q s : Bool) (node : OutlineNode) :
    ∀ (clock : List ClockEntry) (st : DriverState),
      (clock.foldl (process_clocked settings intervals q s node true) st).remote = st.remote ∧
      (clock.foldl (process_clocked settings intervals q s node true) st).writes = st.writes ∧
      (clock.foldl (process_clocked settings intervals q s node true) st).cumulative_time =
        st.cumulative_time + matchedDurationSum intervals clock ∧
      (clock.foldl (process_clocked settings intervals q s node true) st).skipped_time =
        st.skipped_time + matchedDurationSum intervals clock ∧
      (clock.foldl (process_clocked settings intervals q s node true) st).per_task
          (find_jira_issue node settings) =
        st.per_task (find_jira_issue node settings) + matchedDurationSum intervals clock := by
  intro clock
  induction clock with
  | nil =>
    intro st
    simp [matchedDurationSum]
  | cons c rest ih =>
    intro st
    rw [List.foldl_cons]
    cases hmc : match_lookup_intervals intervals c.start c.«end» with
    | none =>
      rw [pc_unmatched settings intervals q s node true st c hmc]
      obtain ⟨ih1, ih2, ih3, ih4, ih5⟩ := ih st
      refine ⟨ih1, ih2, ?_, ?_, ?_⟩ <;>
        simp only [matchedDurationSum, hmc, Option.isSome_none, Bool.false_eq_true,
          if_false] <;> omega
    | some m =>
      obtain ⟨ih1, ih2, ih3, ih4, ih5⟩ :=
        ih (process_clocked settings intervals q s node true st c)
      have hrem := pc_remote settings intervals q s node true st c m hmc
      have hwr := pc_writes settings intervals q s node true st c m hmc
      have hcum := pc_cumulative settings intervals q s node true st c m hmc
      have hskp := pc_skipped settings intervals q s node true st c m hmc
      have htask := pc_per_task settings intervals q s node true st c m
        (find_jira_issue node settings) hmc
      simp only [Bool.not_true, Bool.and_false, Bool.false_eq_true, if_false,
        List.append_nil] at hrem hwr
      rw [hrem] at ih1
      rw [hwr] at ih2
      rw [hcum] at ih3
      rw [hskp] at ih4
      rw [htask, if_pos rfl] at ih5
      refine ⟨ih1, by omega, ?_, ?_, ?_⟩ <;>
        simp only [matchedDurationSum, hmc, Option.isSome_some, if_true, ih3, ih4, ih5] <;>
        omega

/-- Claim C8: a node carrying a truthy `jira-skip` property never
reaches the gate (remote state and write counter are untouched), yet
the resolver still runs and each matched entry adds its full duration
to the per-task total of the resolved issue and to the cumulative and
skipped totals. -/
theorem C8_skipped_node_totals (settings : Settings) (intervals : List Interval)
    (q s : Bool) (st : DriverState) (node : OutlineNode)
    (hskip : pytruthy (node.properties.lookup "jira-skip") = true) :
    (process_node settings intervals q s st node).remote = st.remote ∧
    (process_node settings intervals q s st node).writes = st.writes ∧
    (process_node settings intervals q s st node).cumulative_time =
      st.cumulative_time + matchedDurationSum intervals node.clock ∧
    (process_node settings intervals q s st node).skipped_time =
      st.skipped_time + matchedDurationSum intervals node.clock ∧
    (process_node settings intervals q s st node).per_task
        (find_jira_issue node settings) =
      st.per_task (find_jira_issue node settings) +
        matchedDurationSum intervals node.clock := by
  unfold process_node
  rw [hskip]
  by_cases hc : node.clock.isEmpty
  · rw [if_pos hc]
    have hnil : node.clock = [] := List.isEmpty_iff.mp hc
    rw [hnil]
    simp [matchedDurationSum]
  · rw [if_neg hc]
    exact foldl_skip_accumulation settings intervals q s node node.clock st

/-- Witness for claim C8 at a concrete skipped node. -/
theorem C8_witness :
    (process_node ⟨[], []⟩ [⟨0, 100⟩] true true (initState [])
      (.mk "h" [] [("jira-skip", "t"), ("jira-task", "X")] [⟨0, 50⟩] none)).remote =
      (initState ([] : List Worklog)).remote ∧
    (process_node ⟨[], []⟩ [⟨0, 100⟩] true true (initState [])
      (.mk "h" [] [("jira-skip", "t"), ("jira-task", "X")] [⟨0, 50⟩] none)).writes =
      (initState ([] : List Worklog)).writes ∧
    (process_node ⟨[], []⟩ [⟨0, 100⟩] true true (initState [])
      (.mk "h" [] [("jira-skip", "t"), ("jira-task", "X")] [⟨0, 50⟩] none)).skipped_time =
      (initState ([] : List Worklog)).skipped_time +
        matchedDurationSum [⟨0, 100⟩]
          (OutlineNode.mk "h" [] [("jira-skip", "t"), ("jira-task", "X")] [⟨0, 50⟩] none).clock :=
  ⟨(C8_skipped_node_totals ⟨[], []⟩ [⟨0, 100⟩] true true (initState [])
      (.mk "h" [] [("jira-skip", "t"), ("jira-task", "X")] [⟨0, 50⟩] none) (by decide)).1,
   (C8_skipped_node_totals ⟨[], []⟩ [⟨0, 100⟩] true true (initState [])
      (.mk "h" [] [("jira-skip", "t"), ("jira-task", "X")] [⟨0, 50⟩] none) (by decide)).2.1,
   (C8_skipped_node_totals ⟨[], []⟩ [⟨0, 100⟩] true true (initState [])
      (.mk "h" [] [("jira-skip", "t"), ("jira-task", "X")] [⟨0, 50⟩] none) (by decide)).2.2.2.1⟩

/-- A gate call (issue and matched interval) is covered by a remote
state when a duplicate work-log already exists there, or the seconds
component of its duration is zero, or writing is disabled: in each of
these cases the gate will not write. -/
def covered (remote : List Worklog) (send : Bool) (jira_issue : String)
    (i : Interval) : Prop :=
  (∃ w ∈ worklogsOf remote jira_issue, w.started = i.start) ∨
  tdSeconds (i.«end» - i.start) = 0 ∨ send = false

/-- Coverage is preserved when the remote state grows. -/
theorem covered_append (remote ws : List Worklog) (send : Bool)
    (jira_issue : String) (i : Interval)
    (h : covered remote send jira_issue i) :
    covered (remote ++ ws) send jira_issue i := by
  rcases h with ⟨w, hw, hs⟩ | h | h
  · left
    refine ⟨w, ?_, hs⟩
    simp only [worklogsOf, List.filter_append, List.mem_append]
    exact Or.inl (by simpa [worklogsOf] using hw)
  · exact Or.inr (Or.inl h)
  · exact Or.inr (Or.inr h)

/-- After one gate call with querying enabled, the call is covered by
the resulting remote state: either it found a duplicate, or it wrote
the missing work-log, or it had nothing to write. -/
theorem gate_covers (remote : List Worklog) (jira_issue : String)
    (i : Interval) (d : String) (send : Bool) :
    covered (remote ++ (send_interval_to_jira remote jira_issue i d true send).2)
      send jira_issue i := by
  unfold send_interval_to_jira
  split_ifs with h1 h2
  · left
    simp only [Bool.true_and] at h1
    obtain ⟨w, hw, hb⟩ := List.any_eq_true.mp h1
    refine ⟨w, ?_, by simpa using hb⟩
    simp only [worklogsOf, List.filter_append, List.mem_append]
    exact Or.inl (by simpa [worklogsOf] using hw)
  · left
    refine ⟨⟨jira_issue, i.start, tdSeconds (i.«end» - i.start), d⟩, ?_, rfl⟩
    simp [worklogsOf, List.mem_filter]
  · cases hsnd : send
    · exact Or.inr (Or.inr rfl)
    · right
      left
      simpa [hsnd, bne_iff_ne] using h2

/-- A covered gate call with querying enabled returns not-sent and
creates nothing. -/
theorem gate_covered_noop (remote : List Worklog) (jira_issue : String)
    (i : Interval) (d : String) (send : Bool)
    (h : covered remote send jira_issue i) :
    send_interval_to_jira remote jira_issue i d true send = (false, []) := by
  unfold send_interval_to_jira
  split_ifs with h1 h2
  · rfl
  · exfalso
    rcases h with ⟨w, hw, hs⟩ | hts | hsnd
    · simp only [Bool.true_and] at h1
      exact h1 (List.any_eq_true.mpr ⟨w, hw, by simp [hs]⟩)
    · have hand := (Bool.and_eq_true _ _).mp h2
      exact absurd hts (by simpa [bne_iff_ne] using hand.2)
    · have hand := (Bool.and_eq_true _ _).mp h2
      rw [hsnd] at hand
      exact absurd hand.1 (by simp)
  · rfl

/-- The gate call a clock entry triggers in the driver, if any: only
matched entries of non-skipped nodes with a truthy resolved issue reach
the gate, with the resolved issue id and the matched interval. -/
def entryCall (settings : Settings) (intervals : List Interval)
    (node : OutlineNode) (clocked : ClockEntry) : Option (String × Interval) :=
  match match_lookup_intervals intervals clocked.start clocked.«end» with
  | none => none
  | some m =>
    if pytruthy (find_jira_issue node settings) &&
        !pytruthy (node.properties.lookup "jira-skip") then
      some ((find_jira_issue node settings).getD "", m)
    else none

/-- Processing one entry leaves its own gate call covered by the new
remote state. -/
theorem pc_call_covers (settings : Settings) (intervals : List Interval)
    (send : Bool) (node : OutlineNode) (st : DriverState) (clocked : ClockEntry)
    (call : String × Interval)
    (hc : entryCall settings intervals node clocked = some call) :
    covered (process_clocked settings intervals true send node
        (pytruthy (node.properties.lookup "jira-skip")) st clocked).remote
      send call.1 call.2 := by
  unfold entryCall at hc
  cases hmc : match_lookup_intervals intervals clocked.start clocked.«end» with
  | none =>
    rw [hmc] at hc
    exact absurd hc (by simp)
  | some m =>
    rw [hmc] at hc
    dsimp only at hc
    by_cases hg : (pytruthy (find_jira_issue node settings) &&
        !pytruthy (node.properties.lookup "jira-skip")) = true
    · rw [if_pos hg] at hc
      have hcall := Option.some.inj hc
      subst hcall
      rw [pc_remote settings intervals true send node
        (pytruthy (node.properties.lookup "jira-skip")) st clocked m hmc, if_pos hg]
      exact gate_covers st.remote _ m node.heading send
    · rw [if_neg hg] at hc
      exact absurd hc (by simp)

/-- Processing one entry whose gate call (if any) is already covered
changes neither the remote state nor the write counter. -/
theorem pc_call_noop (settings : Settings) (intervals : List Interval)
    (send : Bool) (node : OutlineNode) (st : DriverState) (clocked : ClockEntry)
    (h : ∀ call, entryCall settings intervals node clocked = some call →
      covered st.remote send call.1 call.2) :
    (process_clocked settings intervals true send node
      (pytruthy (node.properties.lookup "jira-skip")) st clocked).remote = st.remote ∧
    (process_clocked settings intervals true send node
      (pytruthy (node.properties.lookup "jira-skip")) st clocked).writes = st.writes := by
  cases hmc : match_lookup_intervals intervals clocked.start clocked.«end» with
  | none =>
    rw [pc_unmatched settings intervals true send node
      (pytruthy (node.properties.lookup "jira-skip")) st clocked hmc]
    exact ⟨rfl, rfl⟩
  | some m =>
    by_cases hg : (pytruthy (find_jira_issue node settings) &&
        !pytruthy (node.properties.lookup "jira-skip")) = true
    · have hcall := h ((find_jira_issue node settings).getD "", m)
        (by unfold entryCall; rw [hmc]; dsimp only; rw [if_pos hg])
      have hnoop := gate_covered_noop st.remote
        ((find_jira_issue node settings).getD "") m node.heading send hcall
      constructor
      · rw [pc_remote settings intervals true send node
          (pytruthy (node.properties.lookup "jira-skip")) st clocked m hmc,
          if_pos hg, hnoop]
        simp
      · rw [pc_writes settings intervals true send node
          (pytruthy (node.properties.lookup "jira-skip")) st clocked m hmc,
          if_pos hg, hnoop]
        simp
    · constructor
      · rw [pc_remote settings intervals true send node
          (pytruthy (node.properties.lookup "jira-skip")) st clocked m hmc, if_neg hg]
        simp
      · rw [pc_writes settings intervals true send node
          (pytruthy (node.properties.lookup "jira-skip")) st clocked m hmc, if_neg hg]
        simp

/-- Processing one entry only appends to the remote state. -/
theorem pc_remote_extend (settings : Settings) (intervals : List Interval)
    (q s : Bool) (node : OutlineNode) (skip : Bool) (st : DriverState)
    (clocked : ClockEntry) :
    ∃ ws, (process_clocked settings intervals q s node skip st clocked).remote =
      st.remote ++ ws := by
  cases hmc : match_lookup_intervals intervals clocked.start clocked.«end» with
  | none =>
    exact ⟨[], by rw [pc_unmatched settings intervals q s node skip st clocked hmc]; simp⟩
  | some m =>
    exact ⟨_, pc_remote settings intervals q s node skip st clocked m hmc⟩

/-- Folding clock entries only appends to the remote state. -/
theorem foldl_remote_extend (settings : Settings) (intervals : List Interval)
    (q s : Bool) (node : OutlineNode) (skip : Bool) :
    ∀ (clock : List ClockEntry) (st : DriverState),
      ∃ ws, (clock.foldl (process_clocked settings intervals q s node skip) st).remote =
        st.remote ++ ws := by
  intro clock
  induction clock with
  | nil => exact fun st => ⟨[], by simp⟩
  | cons c rest ih =>
    intro st
    rw [List.foldl_cons]
    obtain ⟨ws1, hws1⟩ := pc_remote_extend settings intervals q s node skip st c
    obtain ⟨ws2, hws2⟩ := ih (process_clocked settings intervals q s node skip st c)
    exact ⟨ws1 ++ ws2, by rw [hws2, hws1, List.append_assoc]⟩

/-- Processing one node only appends to the remote state. -/
theorem pn_remote_extend (settings : Settings) (intervals : List Interval)
    (q s : Bool) (st : DriverState) (node : OutlineNode) :
    ∃ ws, (process_node settings intervals q s st node).remote = st.remote ++ ws := by
  simp only [process_node]
  split
  · exact ⟨[], by simp⟩
  · exact foldl_remote_extend settings intervals q s node _ node.clock st

/-- A whole run only appends to the remote state. -/
theorem run_remote_extend (settings : Settings) (intervals : List Interval)
    (q s : Bool) :
    ∀ (nodes : List OutlineNode) (st : DriverState),
      ∃ ws, (send_data_to_jira settings intervals q s nodes st).remote =
        st.remote ++ ws := by
  intro nodes
  induction nodes with
  | nil => exact fun st => ⟨[], by simp [send_data_to_jira]⟩
  | cons n rest ih =>
    intro st
    simp only [send_data_to_jira, List.foldl_cons]
    obtain ⟨ws1, hws1⟩ := pn_remote_extend settings intervals q s st n
    obtain ⟨ws2, hws2⟩ := ih (process_node settings intervals q s st n)
    exact ⟨ws1 ++ ws2, by
      simp only [send_data_to_jira] at hws2
      rw [hws2, hws1, List.append_assoc]⟩

/-- One step of the driver over the node list. -/
theorem run_cons (settings : Settings) (intervals : List Interval) (q s : Bool)
    (n : OutlineNode) (rest : List OutlineNode) (st : DriverState) :
    send_data_to_jira settings intervals q s (n :: rest) st =
      send_data_to_jira settings intervals q s rest
        (process_node settings intervals q s st n) := by
  simp [send_data_to_jira]

/-- After folding the clock entries of a node, every gate call of one
of those entries is covered by the resulting remote state. -/
theorem foldl_covers (settings : Settings) (intervals : List Interval)
    (send : Bool) (node : OutlineNode) :
    ∀ (clock : List ClockEntry) (st : DriverState) (c : ClockEntry),
      c ∈ clock → ∀ call, entryCall settings intervals node c = some call →
      covered ((clock.foldl (process_clocked settings intervals true send node
        (pytruthy (node.properties.lookup "jira-skip"))) st).remote)
        send call.1 call.2 := by
  intro clock
  induction clock with
  | nil =>
    intro st c hmem
    exact absurd hmem (List.not_mem_nil c)
  | cons c0 rest ih =>
    intro st c hmem call hcall
    rw [List.foldl_cons]
    rcases List.mem_cons.mp hmem with hceq | hmem2
    · subst hceq
      obtain ⟨ws, hws⟩ := foldl_remote_extend settings intervals true send node
        (pytruthy (node.properties.lookup "jira-skip")) rest
        (process_clocked settings intervals true send node
          (pytruthy (node.properties.lookup "jira-skip")) st c)
      rw [hws]
      exact covered_append _ ws send call.1 call.2
        (pc_call_covers settings intervals send node st c call hcall)
    · exact ih (process_clocked settings intervals true send node
        (pytruthy (node.properties.lookup "jira-skip")) st c0) c hmem2 call hcall

/-- After processing a node, every gate call of its entries is covered. -/
theorem pn_covers (settings : Settings) (intervals : List Interval)
    (send : Bool) (st : DriverState) (node : OutlineNode) (c : ClockEntry)
    (hmem : c ∈ node.clock) (call : String × Interval)
    (hcall : entryCall settings intervals node c = some call) :
    covered ((process_node settings intervals true send st node).remote)
      send call.1 call.2 := by
  simp only [process_node]
  split
  · next hEmpty =>
      rw [List.isEmpty_iff.mp hEmpty] at hmem
      exact absurd hmem (List.not_mem_nil c)
  · exact foldl_covers settings intervals send node node.clock st c hmem call hcall

/-- After a full run with querying enabled, every gate call of every
processed entry is covered by the final remote state. -/
theorem run_covers (settings : Settings) (intervals : List Interval) (send : Bool) :
    ∀ (nodes : List OutlineNode) (st : DriverState) (node : OutlineNode),
      node ∈ nodes → ∀ c ∈ node.clock, ∀ call,
      entryCall settings intervals node c = some call →
      covered ((send_data_to_jira settings intervals true send nodes st).remote)
        send call.1 call.2 := by
  intro nodes
  induction nodes with
  | nil =>
    intro st node hmem
    exact absurd hmem (List.not_mem_nil node)
  | cons n0 rest ih =>
    intro st node hmem c hc call hcall
    rw [run_cons]
    rcases List.mem_cons.mp hmem with hneq | hmem2
    · subst hneq
      obtain ⟨ws, hws⟩ := run_remote_extend settings intervals true send rest
        (process_node settings intervals true send st node)
      rw [hws]
      exact covered_append _ ws send call.1 call.2
        (pn_covers settings intervals send st node c hc call hcall)
    · exact ih (process_node settings intervals true send st n0) node hmem2 c hc call hcall

/-- Folding clock entries whose gate calls are all covered changes
neither the remote state nor the write counter. -/
theorem foldl_noop (settings : Settings) (intervals : List Interval)
    (send : Bool) (node : OutlineNode) :
    ∀ (clock : List ClockEntry) (st : DriverState),
      (∀ c ∈ clock, ∀ call, entryCall settings intervals node c = some call →
        covered st.remote send call.1 call.2) →
      (clock.foldl (process_clocked settings intervals true send node
        (pytruthy (node.properties.lookup "jira-skip"))) st).remote = st.remote ∧
      (clock.foldl (process_clocked settings intervals true send node
        (pytruthy (node.properties.lookup "jira-skip"))) st).writes = st.writes := by
  intro clock
  induction clock with
  | nil =>
    intro st _
    exact ⟨rfl, rfl⟩
  | cons c0 rest ih =>
    intro st h
    rw [List.foldl_cons]
    have hstep := pc_call_noop settings intervals send node st c0
      (fun call hc => h c0 (List.mem_cons_self c0 rest) call hc)
    have hrest := ih (process_clocked settings intervals true send node
        (pytruthy (node.properties.lookup "jira-skip")) st c0)
      (by
        intro c hc call hcall
        rw [hstep.1]
        exact h c (List.mem_cons_of_mem c0 hc) call hcall)
    exact ⟨by rw [hrest.1, hstep.1], by rw [hrest.2, hstep.2]⟩

/-- Processing a node whose gate calls are all covered changes neither
the remote state nor the write counter. -/
theorem pn_noop (settings : Settings) (intervals : List Interval)
    (send : Bool) (st : DriverState) (node : OutlineNode)
    (h : ∀ c ∈ node.clock, ∀ call, entryCall settings intervals node c = some call →
      covered st.remote send call.1 call.2) :
    (process_node settings intervals true send st node).remote = st.remote ∧
    (process_node settings intervals true send st node).writes = st.writes := by
  simp only [process_node]
  split
  · exact ⟨rfl, rfl⟩
  · exact foldl_noop settings intervals send node node.clock st h

/-- A run over nodes whose gate calls are all covered by the starting
remote state performs no write and leaves the remote state unchanged. -/
theorem run_noop (settings : Settings) (intervals : List Interval) (send : Bool) :
    ∀ (nodes : List OutlineNode) (st : DriverState),
      (∀ node ∈ nodes, ∀ c ∈ node.clock, ∀ call,
        entryCall settings intervals node c = some call →
        covered st.remote send call.1 call.2) →
      (send_data_to_jira settings intervals true send nodes st).remote = st.remote ∧
      (send_data_to_jira settings intervals true send nodes st).writes = st.writes := by
  intro nodes
  induction nodes with
  | nil =>
    intro st _
    exact ⟨rfl, rfl⟩
  | cons n0 rest ih =>
    intro st h
    rw [run_cons]
    have hstep := pn_noop settings intervals send st n0
      (fun c hc call hcall => h n0 (List.mem_cons_self n0 rest) c hc call hcall)
    have hrest := ih (process_node settings intervals true send st n0)
      (by
        intro node hn c hc call hcall
        rw [hstep.1]
        exact h node (List.mem_cons_of_mem n0 hn) c hc call hcall)
    exact ⟨by rw [hrest.1, hstep.1], by rw [hrest.2, hstep.2]⟩

/-- Claim C9: running the driver twice over the same documents and
requested intervals with querying enabled, where the second run starts
from the remote state the first run produced, performs zero
create-worklog writes in the second run and leaves the remote state
unchanged. -/
theorem C9_second_run_is_noop (settings : Settings) (intervals : List Interval)
    (send : Bool) (nodes : List OutlineNode) (r0 : List Worklog) :
    (send_data_to_jira settings intervals true send nodes
      (initState (send_data_to_jira settings intervals true send nodes
        (initState r0)).remote)).writes = 0 ∧
    (send_data_to_jira settings intervals true send nodes
      (initState (send_data_to_jira settings intervals true send nodes
        (initState r0)).remote)).remote =
      (send_data_to_jira settings intervals true send nodes (initState r0)).remote := by
  have hnoop := run_noop settings intervals send nodes
    (initState (send_data_to_jira settings intervals true send nodes (initState r0)).remote)
    (by
      intro node hn c hc call hcall
      exact run_covers settings intervals send nodes (initState r0) node hn c hc call hcall)
  exact ⟨hnoop.2, hnoop.1⟩

end OrgJiraTimeline
